import Mathlib

/-!
Shallow embedding of the schema-resolution engine in
`src/edgedb/server/yaml/__init__.py` (the YAML meta adapter), together with
theorems settling the frozen claims about it.  Each definition is translated
from the named Python function; definitions whose Python source lives in the
external `semantix.caos.proto` package (only called from this file) are
modelled from the specification and say so in their doc comment.
-/

namespace Caos

/-- `caos.Name`: a qualified name `module.name`. -/
structure CaosName where
  module : String
  nm : String
deriving DecidableEq, Repr

/-- Rendering of a qualified name as the dotted string `module.name`. -/
def qualName (n : CaosName) : String := n.module ++ "." ++ n.nm

/-- `caos.types.LinkMapping`: the four cardinality mappings
`11`, `1*`, `*1`, `**`. -/
inductive LinkMapping
  | oneToOne
  | oneToMany
  | manyToOne
  | manyToMany
deriving DecidableEq, Repr

/-- The terminal schema errors raised by the engine (spec section 7 taxonomy;
`crash` stands for an uncaught Python exception such as `IndexError`). -/
inductive MetaErr
  | duplicateName
  | unresolvedName
  | finalInheritance
  | incompatibleDefaultMapping
  | defaultTypeMismatch
  | ambiguousResult
  | nonScalarComputable
  | atomMappingConflict
  | scalePrecision
  | crash
deriving DecidableEq, Repr

/-! ### C10: `AtomConstraintPrecision.construct` (lines 224-236) -/

/-- The raw `precision` field of a numeric precision constraint: either a
single integer or a two-element `[precision, scale]` sequence. -/
inductive PrecisionSpec
  | single (p : Int)
  | pair (p s : Int)
deriving DecidableEq, Repr

/-- `AtomConstraintPrecision.construct`: a bare integer `p` yields `(p, 0)`;
a pair `[p, s]` is rejected when `s >= p`, otherwise yields `(p, s)`. -/
def AtomConstraintPrecision_construct : PrecisionSpec → Except MetaErr (Int × Int)
  | .single p => .ok (p, 0)
  | .pair p s => if s ≥ p then .error .scalePrecision else .ok (p, s)

/-! ### C2: the query-default mapping check in
`MetaSet.normalize_pointer_defaults` (lines 1160-1185) -/

/-- The data `normalize_pointer_defaults` examines for one `QueryDefaultSpec`
on one pointer: the number of result columns inferred for the default query
(`len(tree.result_types)`), whether the first inferred type is a subclass of
the pointer's declared target, whether that target is an Atom
(`caos.types.ProtoAtom`), and the pointer's declared cardinality mapping. -/
structure QueryDefaultInput where
  numResultTypes : Nat
  firstIsSubclassOfTarget : Bool
  targetIsAtom : Bool
  mapping : Option LinkMapping
deriving DecidableEq, Repr

/-- The validation performed by `MetaSet.normalize_pointer_defaults` for a
single query default: taking the first result type of an empty result set is
an uncaught `IndexError`; a multi-column result or a non-subclass result type
raises the single-column/type error; for a non-Atom (object) target, a mapping
other than `ManyToOne` (`*1`) or `ManyToMany` (`**`) raises the
incompatible-mapping error. -/
def normalize_query_default (q : QueryDefaultInput) : Except MetaErr Unit :=
  if q.numResultTypes = 0 then .error .crash
  else if q.numResultTypes > 1 ∨ q.firstIsSubclassOfTarget = false then
    .error .defaultTypeMismatch
  else if q.targetIsAtom = false ∧
      ¬ (q.mapping = some .manyToOne ∨ q.mapping = some .manyToMany) then
    .error .incompatibleDefaultMapping
  else .ok ()

/-! ### C3: `MetaSet.normalize_computables` (lines 1188-1231) -/

/-- An inferred result type of a computable expression: an Atom (scalar) or a
Concept (object) type. -/
inductive CompTy
  | atomTy (n : CaosName)
  | conceptTy (n : CaosName)
deriving DecidableEq, Repr

/-- `isinstance(first, proto.Atom)` on an inferred result type. -/
def CompTy.isAtom : CompTy → Bool
  | .atomTy _ => true
  | .conceptTy _ => false

/-- The state of a `proto.Computable` pointer that `normalize_computables`
updates: its (initially unset) target type. -/
structure ComputablePtr where
  target : Option CompTy
deriving DecidableEq, Repr

/-- The per-computable core of `MetaSet.normalize_computables`: take the first
inferred result type (uncaught `IndexError` when there is none); reject a
multi-column result; when the declaring source is a Link (the computable is a
link property), reject a non-Atom result type; otherwise record the single
inferred type as the computable's target. -/
def normalize_computable (sourceIsLink : Bool) (resultTypes : List CompTy)
    (c : ComputablePtr) : Except MetaErr ComputablePtr :=
  match resultTypes with
  | [] => .error .crash
  | first :: rest =>
    if rest ≠ [] then .error .ambiguousResult
    else if sourceIsLink = true ∧ first.isAtom = false then
      .error .nonScalarComputable
    else .ok { c with target := some first }

/-! ### C4: `MetaSet._check_base` (lines 772-777) and the base loop of
`MetaSet.order_concepts` (lines 1282-1285) -/

/-- An entry of the global namespace index as `_check_base` sees it: either a
schema prototype (a `caos.types.ProtoObject`, carrying its `is_final` flag) or
a plain Python class reachable through `include_pyobjects=True`. -/
inductive IndexEntry
  | protoObj (isFinal : Bool)
  | pyObj
deriving DecidableEq, Repr

/-- Lookup in the global index (`globalmeta.get`), as a finite association
list keyed by qualified name. -/
def indexGet (idx : List (CaosName × IndexEntry)) (n : CaosName) :
    Option IndexEntry :=
  (idx.find? (fun p => p.fst = n)).map Prod.snd

/-- `MetaSet._check_base`: resolve the base name in the global index (an
unresolvable name is an error raised by `get`); when it resolves to a
prototype marked final, raise the final-inheritance error; a Python class
base passes the check. -/
def check_base (idx : List (CaosName × IndexEntry)) (baseName : CaosName) :
    Except MetaErr Unit :=
  match indexGet idx baseName with
  | none => .error .unresolvedName
  | some (.protoObj fin) => if fin then .error .finalInheritance else .ok ()
  | some .pyObj => .ok ()

/-- The base-checking loop of `MetaSet.order_concepts`:
`for base_name in concept.base: self._check_base(concept, base_name, ...)`,
stopping at the first error. -/
def check_bases (idx : List (CaosName × IndexEntry)) :
    List CaosName → Except MetaErr Unit
  | [] => .ok ()
  | b :: rest =>
    match check_base idx b with
    | .error e => .error e
    | .ok () => check_bases idx rest

/-! ### C5: the atomic-link mapping check in `MetaSet.order_concepts`
(lines 1252-1274) -/

/-- The per-link validation `order_concepts` applies to a concept's pointer
once its target is resolved: when the target is an Atom, a declared mapping
other than `OneToOne` raises (`links to atoms can only have a "1 to 1"
mapping`); an unset (`None`) mapping, or a non-Atom target, passes. -/
def check_concept_link_mapping (targetIsAtom : Bool)
    (mapping : Option LinkMapping) : Except MetaErr Unit :=
  if targetIsAtom then
    match mapping with
    | some m => if m ≠ .oneToOne then .error .atomMappingConflict else .ok ()
    | none => .ok ()
  else .ok ()

/-! ### C7: the final pass of `MetaSet.construct` (lines 735-769) -/

/-- The module that holds builtin declarations. -/
def builtinModule : String := "semantix.caos.builtins"

/-- A declaration as the final pass sees it: its qualified name together with
a flag recording whether `setdefaults()` has been applied to it. -/
structure ProtoDecl where
  module : String
  nm : String
  defaultsApplied : Bool
deriving DecidableEq, Repr

/-- `prototype.setdefaults()`: fill in the remaining unset default values. -/
def setdefaults (d : ProtoDecl) : ProtoDecl := { d with defaultsApplied := true }

/-- The final pass of `MetaSet.construct`: nothing is inserted into the final
index unless the module is the top-level one; each ordered declaration is
inserted exactly when builtin inclusion was requested or its module is not the
builtin module, and `setdefaults` runs on it right before insertion.  Each of
the five kind loops (atoms, computables, link properties, links, concepts) has
this same shape; the embedding runs it on one list of declarations. -/
def final_pass (toplevel include_builtin : Bool) (decls : List ProtoDecl) :
    List ProtoDecl :=
  if toplevel then
    (decls.filter
      (fun d => include_builtin || decide (d.module ≠ builtinModule))).map
      setdefaults
  else []

/-! ### C9: default bases in `MetaSet.read_links` (lines 989-993),
`MetaSet.read_link_properties` (lines 851-855) and
`MetaSet.read_concepts` (lines 1102-1106) -/

/-- `semantix.caos.builtins.link`. -/
def builtins_link : CaosName := ⟨builtinModule, "link"⟩

/-- `semantix.caos.builtins.link_property`. -/
def builtins_link_property : CaosName := ⟨builtinModule, "link_property"⟩

/-- `semantix.caos.builtins.Object`. -/
def builtins_Object : CaosName := ⟨builtinModule, "Object"⟩

/-- `semantix.caos.builtins.BaseObject`. -/
def builtins_BaseObject : CaosName := ⟨builtinModule, "BaseObject"⟩

/-- The base fixup in `MetaSet.read_links`: declared bases are normalized
through the local link namespace (`ns`); a link with no declared bases whose
name is not `semantix.caos.builtins.link` receives that name as its sole
base. -/
def read_links_fix_base (ns : CaosName → CaosName) (nm : CaosName)
    (base : List CaosName) : List CaosName :=
  if base ≠ [] then base.map ns
  else if nm ≠ builtins_link then [builtins_link] else base

/-- The base fixup in `MetaSet.read_link_properties`: same shape as for links,
rooted at `semantix.caos.builtins.link_property`. -/
def read_link_properties_fix_base (ns : CaosName → CaosName) (nm : CaosName)
    (base : List CaosName) : List CaosName :=
  if base ≠ [] then base.map ns
  else if nm ≠ builtins_link_property then [builtins_link_property] else base

/-- The base fixup in `MetaSet.read_concepts`: after the declared bases are
split into prototype bases and custom (Python class) bases, a concept whose
prototype bases are empty and whose name is not
`semantix.caos.builtins.BaseObject` receives `semantix.caos.builtins.Object`
as its sole prototype base. -/
def read_concepts_fix_bases (nm : CaosName) (bases : List CaosName) :
    List CaosName :=
  if bases = [] ∧ nm ≠ builtins_BaseObject then [builtins_Object] else bases

/-! ### C1: link specialization in `MetaSet.read_concepts` (lines 1124-1134)
and `MetaSet.read_properties_for_link` (lines 910-925) -/

/-- Modelled from the spec: `proto.Link.generate_name` /
`proto.LinkProperty.generate_name` live in the external `semantix.caos.proto`
package; the spec says the specialized qualified name is synthesized
deterministically from the `(source, pointer-name, target)` triple, so the
model is a fixed encoding of that triple. -/
def generate_name (source : CaosName) (target : CaosName)
    (qname : CaosName) : String :=
  qualName source ++ "." ++ qualName qname ++ "." ++ qualName target

/-- A specialized link (or link property) as produced by the specialization
sites: qualified name, base tuple, concrete source and target. -/
structure SpecLink where
  name : CaosName
  base : List CaosName
  source : CaosName
  target : CaosName
deriving DecidableEq, Repr

/-- The specialization step of `MetaSet.read_concepts` for one concrete use of
a pointer: `link.base = (link_qname,)`;
`link_genname = proto.Link.generate_name(link.source, link.target, link_qname)`;
`link.name = caos.Name(name=link_genname, module=link_qname.module)`.
`read_properties_for_link` performs the same step for link properties. -/
def specialize_link (source : CaosName) (target : CaosName)
    (link_qname : CaosName) : SpecLink :=
  { base := [link_qname]
  , name := ⟨link_qname.module, generate_name source target link_qname⟩
  , source := source
  , target := target }

/-- Modelled from the spec: `proto.RealmMeta.add` (external
`semantix.caos.proto` package) registers a declaration in a name-keyed index;
re-registration under an already present name of the same kind does not
create a second entry, it replaces the one keyed by that name. -/
def meta_add (idx : List (CaosName × SpecLink)) (l : SpecLink) :
    List (CaosName × SpecLink) :=
  if (idx.find? (fun p => p.fst = l.name)).isSome then
    idx.map (fun p => if p.fst = l.name then (p.fst, l) else p)
  else idx ++ [(l.name, l)]

/-! ### C8: declaration registration — the duplicate check of
`MetaSet.read_concepts` (lines 1076-1084) and plain registration in
`MetaSet.read_atoms` (lines 783-787) -/

/-- The kinds of registered declarations. -/
inductive DeclKind
  | atom
  | concept
  | link
  | linkProperty
  | computable
deriving DecidableEq, Repr

/-- Lookup of a name's registered kind in a kind-tagged index. -/
def kindIndexGet (idx : List (CaosName × DeclKind)) (n : CaosName) :
    Option DeclKind :=
  (idx.find? (fun p => p.fst = n)).map Prod.snd

/-- Modelled from the spec: `proto.RealmMeta.add` (external
`semantix.caos.proto` package).  Per the Namespace Index contract, "`add(decl)`
inserts a declaration, failing with `DuplicateNameError` if the qualified name
already exists with a different kind incompatible with override rules"; a
same-kind re-registration is accepted (the engine itself re-adds identically
named specializations, and the concept reader carries its own explicit
duplicate pre-check). -/
def RealmMeta_add (idx : List (CaosName × DeclKind)) (nm : CaosName)
    (k : DeclKind) : Except MetaErr (List (CaosName × DeclKind)) :=
  match kindIndexGet idx nm with
  | some k0 => if k0 ≠ k then .error .duplicateName else .ok idx
  | none => .ok (idx ++ [(nm, k)])

/-- Concept registration in `MetaSet.read_concepts`: an explicit pre-check
`if globalmeta.get(concept.name, None): raise '%s already defined'` guards the
`globalmeta.add(concept)` call, so any existing registration under the name,
of whatever kind, is an error. -/
def register_concept (idx : List (CaosName × DeclKind)) (nm : CaosName) :
    Except MetaErr (List (CaosName × DeclKind)) :=
  if (kindIndexGet idx nm).isSome then .error .duplicateName
  else RealmMeta_add idx nm .concept

/-- Atom registration in `MetaSet.read_atoms`: a bare `globalmeta.add(atom)`
with no duplicate pre-check. -/
def register_atom (idx : List (CaosName × DeclKind)) (nm : CaosName) :
    Except MetaErr (List (CaosName × DeclKind)) :=
  RealmMeta_add idx nm .atom

/-! ### C6: the dump side of the round trip — `RealmMeta.represent`
(lines 1376-1393), `LinkDef.represent` (lines 515-573) and
`LinkProperty.represent` (lines 441-475) -/

/-- A constraint map as stored on prototypes: constraint class name to the
constraints of that class (`chain.from_iterable(d.values())` flattens it). -/
abbrev ConstraintMap : Type := List (String × List String)

/-- `itertools.chain.from_iterable(d.values())` over a constraint map. -/
def cflat (m : ConstraintMap) : List String := (m.map Prod.snd).flatten

/-- A link property's resolved target atom as `LinkProperty.represent` reads
it: its name, whether it is an automatically generated inline atom, and its
constraint map. -/
structure AtomTargetInfo where
  name : CaosName
  automatic : Bool
  constraints : ConstraintMap
deriving DecidableEq, Repr

/-- The state of a `proto.LinkProperty` that `represent` consumes. -/
structure LinkPropertyState where
  target : Option AtomTargetInfo
  local_constraints : ConstraintMap
  abstract_constraints : ConstraintMap
  title : Option String
  description : Option String
  default : Option (List String)
deriving DecidableEq, Repr

/-- The mapping body built up by `LinkProperty.represent` (absent dict keys
are `none`). -/
structure PropReprBody where
  constraints : Option (List String)
  abstract_constraints : Option (List String)
  title : Option String
  description : Option String
  default : Option (List String)
deriving DecidableEq, Repr

/-- The four result shapes of `LinkProperty.represent`: `{target.name: result}`,
a bare `result` mapping, the plain string `str(target.name)`, or `{}`. -/
inductive PropRepr
  | keyed (targetName : String) (body : PropReprBody)
  | plain (body : PropReprBody)
  | bare (targetName : String)
  | emptyMap
deriving DecidableEq, Repr

/-- Python truthiness of an optional string attribute. -/
def strTruthy : Option String → Bool
  | none => false
  | some s => s ≠ ""

/-- `LinkProperty.represent`, line for line: automatic-target constraints and
local constraints accumulate under `constraints`; when
`data.abstract_constraints` is non-empty the value written under
`abstract-constraints` is `chain.from_iterable(data.local_constraints.values())`
— the local constraint map, exactly as the source reads; then title,
description and default, and finally the four result shapes. -/
def LinkProperty_represent (d : LinkPropertyState) : PropRepr :=
  let c0 : Option (List String) :=
    match d.target with
    | some t =>
      if t.constraints ≠ [] ∧ t.automatic then some (cflat t.constraints)
      else none
    | none => none
  let c1 : Option (List String) :=
    if d.local_constraints ≠ [] then some (c0.getD [] ++ cflat d.local_constraints)
    else c0
  let a1 : Option (List String) :=
    if d.abstract_constraints ≠ [] then some (cflat d.local_constraints)
    else none
  let body : PropReprBody :=
    { constraints := c1
    , abstract_constraints := a1
    , title := if strTruthy d.title then d.title else none
    , description := if strTruthy d.description then d.description else none
    , default := d.default }
  if body ≠ ⟨none, none, none, none, none⟩ then
    match d.target with
    | some t => .keyed (qualName t.name) body
    | none => .plain body
  else
    match d.target with
    | some t => .bare (qualName t.name)
    | none => .emptyMap

/-- The raw declaration of one link property under a link, in the fully
specified dict form that `LinkProperty.construct` (lines 423-439) reads:
target atom name, title, description, default, `constraints` and
`abstract-constraints`. -/
structure LinkPropertyInfo where
  targetAtom : CaosName
  title : Option String
  description : Option String
  default : Option (List String)
  constraints : ConstraintMap
  abstract_constraints : ConstraintMap
deriving DecidableEq, Repr

/-- The intake of one link property: `LinkProperty.construct` stores target
name, title, description and default and stashes the raw constraint maps;
`read_properties_for_link` (lines 918-920) attaches them through
`add_pointer_constraints` — regular ones via `add_constraint` into
`local_constraints`, abstract ones via `add_abstract_constraint` into
`abstract_constraints` (both setters modelled from the spec, external
`semantix.caos.proto`); `order_links` resolves the target name to the atom
object, passed here as `target`. -/
def intake_link_property (info : LinkPropertyInfo) (target : AtomTargetInfo) :
    LinkPropertyState :=
  { target := some target
  , local_constraints := info.constraints
  , abstract_constraints := info.abstract_constraints
  , title := info.title
  , description := info.description
  , default := info.default }

/-- The `properties` field emitted by `LinkDef.represent` (lines 550-557) for
a generic link as dumped by `RealmMeta.represent`: each non-computable own
pointer, represented through `LinkProperty.represent`. -/
def LinkDef_represent_properties (ptrs : List (String × LinkPropertyState)) :
    List (String × PropRepr) :=
  ptrs.map (fun p => (p.fst, LinkProperty_represent p.snd))

/-! ## Theorems -/

/-- C10: constructing a numeric precision constraint from a two-element pair
`[precision, scale]` fails exactly when `scale >= precision` (and otherwise
yields `(precision, scale)`); constructing it from a single integer `p` always
succeeds and yields `(p, 0)`. -/
theorem C10_precision_construct :
    (∀ p s : Int,
      AtomConstraintPrecision_construct (PrecisionSpec.pair p s) =
        Except.error MetaErr.scalePrecision ↔ s ≥ p)
    ∧ (∀ p s : Int, s < p →
      AtomConstraintPrecision_construct (PrecisionSpec.pair p s) =
        Except.ok (p, s))
    ∧ (∀ p : Int,
      AtomConstraintPrecision_construct (PrecisionSpec.single p) =
        Except.ok (p, 0)) := by
  refine ⟨fun p s => ?_, fun p s h => ?_, fun p => rfl⟩
  · unfold AtomConstraintPrecision_construct
    by_cases h : s ≥ p
    · simp [h]
    · simp [h]
  · unfold AtomConstraintPrecision_construct
    simp [not_le.mpr h]

/-- Witness for C10: the pair `[5, 7]` is rejected, the pair `[5, 2]` yields
`(5, 2)`, and the single integer `5` yields `(5, 0)`. -/
theorem C10_precision_construct_witness :
    AtomConstraintPrecision_construct (PrecisionSpec.pair 5 7) =
      Except.error MetaErr.scalePrecision
    ∧ AtomConstraintPrecision_construct (PrecisionSpec.pair 5 2) =
      Except.ok (5, 2)
    ∧ AtomConstraintPrecision_construct (PrecisionSpec.single 5) =
      Except.ok (5, 0) :=
  ⟨(C10_precision_construct.1 5 7).mpr (by decide),
   C10_precision_construct.2.1 5 2 (by decide),
   C10_precision_construct.2.2 5⟩

/-- C2 counterexample: with a well-typed single-column default query on a
pointer whose target is an object type, the code accepts a `ManyToOne` (`*1`)
mapping and rejects a `OneToMany` (`1*`) mapping — the opposite of the claim,
which allows `one-to-many` and forbids everything but it and `many-to-many`. -/
theorem C2_mapping_counterexample :
    normalize_query_default ⟨1, true, false, some LinkMapping.manyToOne⟩ =
      Except.ok ()
    ∧ normalize_query_default ⟨1, true, false, some LinkMapping.oneToMany⟩ =
      Except.error MetaErr.incompatibleDefaultMapping :=
  ⟨rfl, rfl⟩

/-- C2 (amended): for a pointer carrying a well-typed single-column query
default whose declared target is a non-scalar (object) type, resolution
succeeds exactly when the declared mapping is `ManyToOne` (`*1`) or
`ManyToMany` (`**`); any other mapping — in particular `one-to-one` —
fails with the incompatible-default-mapping error. -/
theorem C2_default_mapping_check (q : QueryDefaultInput)
    (h1 : q.numResultTypes = 1) (h2 : q.firstIsSubclassOfTarget = true)
    (h3 : q.targetIsAtom = false) :
    (normalize_query_default q = Except.ok () ↔
      (q.mapping = some LinkMapping.manyToOne ∨
       q.mapping = some LinkMapping.manyToMany))
    ∧ (¬ (q.mapping = some LinkMapping.manyToOne ∨
          q.mapping = some LinkMapping.manyToMany) →
        normalize_query_default q =
          Except.error MetaErr.incompatibleDefaultMapping) := by
  obtain ⟨n, fs, ta, m⟩ := q
  simp only at h1 h2 h3
  subst h1 h2 h3
  unfold normalize_query_default
  by_cases h : m = some LinkMapping.manyToOne ∨ m = some LinkMapping.manyToMany
  · simp [h]
  · simp [h]

/-- Witness for C2 (amended): a many-to-many object link with a well-typed
single-column query default resolves, and the same link mapped one-to-one
fails with the incompatible-default-mapping error. -/
theorem C2_default_mapping_check_witness :
    normalize_query_default ⟨1, true, false, some LinkMapping.manyToMany⟩ =
      Except.ok ()
    ∧ normalize_query_default ⟨1, true, false, some LinkMapping.oneToOne⟩ =
      Except.error MetaErr.incompatibleDefaultMapping :=
  ⟨(C2_default_mapping_check ⟨1, true, false, some LinkMapping.manyToMany⟩
      rfl rfl rfl).1.mpr (Or.inr rfl),
   (C2_default_mapping_check ⟨1, true, false, some LinkMapping.oneToOne⟩
      rfl rfl rfl).2 (by decide)⟩

/-- C3 counterexample: a computable declared on a Link (a computable link
property) whose expression infers to exactly one result column of object
(non-Atom) type does not get that type recorded as its target — resolution
fails with the non-scalar-computable error instead. -/
theorem C3_nonscalar_counterexample :
    normalize_computable true [CompTy.conceptTy ⟨"test", "Person"⟩] ⟨none⟩ =
      Except.error MetaErr.nonScalarComputable :=
  rfl

/-- C3 (amended): if type inference yields more than one result column the
computable is rejected with the ambiguous-result error; if it yields exactly
one column, the single type is recorded as the computable's target unless the
computable is declared on a Link and the type is not an Atom, in which case
resolution fails with the non-scalar-computable error. -/
theorem C3_computable_single_column (sourceIsLink : Bool)
    (ts : List CompTy) (c : ComputablePtr) :
    (ts.length > 1 →
      normalize_computable sourceIsLink ts c =
        Except.error MetaErr.ambiguousResult)
    ∧ (∀ t, ts = [t] → (sourceIsLink = false ∨ t.isAtom = true) →
      normalize_computable sourceIsLink ts c =
        Except.ok { c with target := some t })
    ∧ (∀ t, ts = [t] → sourceIsLink = true → t.isAtom = false →
      normalize_computable sourceIsLink ts c =
        Except.error MetaErr.nonScalarComputable) := by
  refine ⟨fun h => ?_, fun t ht hc => ?_, fun t ht hs ha => ?_⟩
  · match ts, h with
    | t :: u :: rest, _ => simp [normalize_computable]
  · subst ht
    rcases hc with hc | hc <;> simp [normalize_computable, hc]
  · subst ht hs
    simp [normalize_computable, ha]

/-- Witness for C3 (amended): a two-column result is ambiguous; a single
Atom-typed column on a concept computable is recorded as the target; a single
Concept-typed column on a link-property computable is a non-scalar error. -/
theorem C3_computable_single_column_witness :
    normalize_computable false
      [CompTy.atomTy ⟨"b", "str"⟩, CompTy.atomTy ⟨"b", "int"⟩] ⟨none⟩ =
      Except.error MetaErr.ambiguousResult
    ∧ normalize_computable false [CompTy.atomTy ⟨"b", "str"⟩] ⟨none⟩ =
      Except.ok ⟨some (CompTy.atomTy ⟨"b", "str"⟩)⟩
    ∧ normalize_computable true [CompTy.conceptTy ⟨"b", "Obj"⟩] ⟨none⟩ =
      Except.error MetaErr.nonScalarComputable :=
  ⟨(C3_computable_single_column false _ ⟨none⟩).1 (by decide),
   (C3_computable_single_column false _ ⟨none⟩).2.1 _ rfl (Or.inl rfl),
   (C3_computable_single_column true _ ⟨none⟩).2.2 _ rfl rfl rfl⟩

/-- C4: during concept ordering, when every declared base of a declaration
resolves in the global index to a prototype, the presence of a base marked
final makes the base check fail with the final-inheritance error; a
declaration all of whose bases resolve to non-final prototypes passes the
check. -/
theorem C4_final_base_check (idx : List (CaosName × IndexEntry))
    (bases : List CaosName)
    (hres : ∀ b ∈ bases, ∃ f, indexGet idx b = some (IndexEntry.protoObj f)) :
    ((∃ b ∈ bases, indexGet idx b = some (IndexEntry.protoObj true)) →
      check_bases idx bases = Except.error MetaErr.finalInheritance)
    ∧ ((∀ b ∈ bases, indexGet idx b = some (IndexEntry.protoObj false)) →
      check_bases idx bases = Except.ok ()) := by
  induction bases with
  | nil =>
    exact ⟨fun h => absurd h (by simp), fun _ => rfl⟩
  | cons b rest ih =>
    have hb := hres b (List.mem_cons_self b rest)
    have hrest : ∀ x ∈ rest, ∃ f, indexGet idx x = some (IndexEntry.protoObj f) :=
      fun x hx => hres x (List.mem_cons_of_mem b hx)
    obtain ⟨f, hf⟩ := hb
    constructor
    · rintro ⟨b0, hmem, hfin⟩
      rcases List.mem_cons.mp hmem with h0 | h0
      · subst h0
        rw [hf] at hfin
        cases hfin
        unfold check_bases check_base
        rw [hf]
        rfl
      · cases f
        · unfold check_bases check_base
          rw [hf]
          exact (ih hrest).1 ⟨b0, h0, hfin⟩
        · unfold check_bases check_base
          rw [hf]
          rfl
    · intro hall
      have hbf := hall b (List.mem_cons_self b rest)
      unfold check_bases check_base
      rw [hbf]
      exact (ih hrest).2 (fun x hx => hall x (List.mem_cons_of_mem b hx))

/-- Witness for C4: a single base resolving to a final prototype fails the
check with the final-inheritance error, and a single base resolving to a
non-final prototype passes it. -/
theorem C4_final_base_check_witness :
    check_bases [(⟨"test", "F"⟩, IndexEntry.protoObj true)] [⟨"test", "F"⟩] =
      Except.error MetaErr.finalInheritance
    ∧ check_bases [(⟨"test", "B"⟩, IndexEntry.protoObj false)] [⟨"test", "B"⟩] =
      Except.ok () :=
  ⟨(C4_final_base_check [(⟨"test", "F"⟩, IndexEntry.protoObj true)]
      [⟨"test", "F"⟩] (by decide)).1 (by decide),
   (C4_final_base_check [(⟨"test", "B"⟩, IndexEntry.protoObj false)]
      [⟨"test", "B"⟩] (by decide)).2 (by decide)⟩

/-- C5: in the concept-ordering pass, a concept link whose resolved target is
an Atom and whose declared mapping is anything other than one-to-one raises
the atomic-mapping error, while a declared one-to-one mapping passes. -/
theorem C5_atomic_link_mapping (m : LinkMapping)
    (h : m ≠ LinkMapping.oneToOne) :
    check_concept_link_mapping true (some m) =
      Except.error MetaErr.atomMappingConflict
    ∧ check_concept_link_mapping true (some LinkMapping.oneToOne) =
      Except.ok () :=
  ⟨by simp [check_concept_link_mapping, h], rfl⟩

/-- Witness for C5: a many-to-many atomic link fails and a one-to-one atomic
link passes the mapping check. -/
theorem C5_atomic_link_mapping_witness :
    check_concept_link_mapping true (some LinkMapping.manyToMany) =
      Except.error MetaErr.atomMappingConflict
    ∧ check_concept_link_mapping true (some LinkMapping.oneToOne) =
      Except.ok () :=
  C5_atomic_link_mapping LinkMapping.manyToMany (by decide)

/-- C7: the final index is populated only for the top-level module; a
declaration is inserted exactly when it comes from the input and either
builtin inclusion was requested or its module is not the builtin module; and
every inserted declaration has had `setdefaults` applied. -/
theorem C7_final_pass (tl ib : Bool) (ds : List ProtoDecl) :
    (tl = false → final_pass tl ib ds = [])
    ∧ (∀ d, d ∈ final_pass tl ib ds ↔
        tl = true ∧ ∃ d0 ∈ ds,
          (ib = true ∨ d0.module ≠ builtinModule) ∧ d = setdefaults d0)
    ∧ (∀ d ∈ final_pass tl ib ds, d.defaultsApplied = true) := by
  cases tl with
  | false =>
    refine ⟨fun _ => rfl, fun d => ?_, fun d hd => ?_⟩
    · simp [final_pass]
    · simp [final_pass] at hd
  | true =>
    refine ⟨fun h => Bool.noConfusion h, fun d => ?_, fun d hd => ?_⟩
    · simp only [final_pass, if_pos, List.mem_map, List.mem_filter,
                 Bool.or_eq_true, decide_eq_true_eq, true_and]
      constructor
      · rintro ⟨d0, ⟨hd0, hcond⟩, hset⟩
        exact ⟨d0, hd0, hcond, hset.symm⟩
      · rintro ⟨d0, hd0, hcond, hset⟩
        exact ⟨d0, ⟨hd0, hcond⟩, hset.symm⟩
    · simp only [final_pass, if_pos, List.mem_map] at hd
      obtain ⟨d0, _, hset⟩ := hd
      rw [← hset]
      rfl

/-- Witness for C7: a non-top-level load inserts nothing; a top-level load
without builtin inclusion inserts a user-module declaration with its defaults
applied. -/
theorem C7_final_pass_witness :
    final_pass false true [⟨"test", "A", false⟩] = []
    ∧ setdefaults ⟨"test", "A", false⟩ ∈
        final_pass true false [⟨"test", "A", false⟩] :=
  ⟨(C7_final_pass false true [⟨"test", "A", false⟩]).1 rfl,
   ((C7_final_pass true false [⟨"test", "A", false⟩]).2.1
      (setdefaults ⟨"test", "A", false⟩)).mpr
     ⟨rfl, ⟨"test", "A", false⟩, by simp, Or.inr (by decide), rfl⟩⟩

/-- C9: after the reading pass, a link with no declared bases whose name is
not `semantix.caos.builtins.link` receives exactly that name as its base
tuple; a link property with no declared bases whose name is not
`semantix.caos.builtins.link_property` receives that name; and a concept with
no prototype bases whose name is not `semantix.caos.builtins.BaseObject`
receives `semantix.caos.builtins.Object`. -/
theorem C9_default_builtin_bases :
    (∀ (ns : CaosName → CaosName) (nm : CaosName), nm ≠ builtins_link →
      read_links_fix_base ns nm [] = [builtins_link])
    ∧ (∀ (ns : CaosName → CaosName) (nm : CaosName),
        nm ≠ builtins_link_property →
      read_link_properties_fix_base ns nm [] = [builtins_link_property])
    ∧ (∀ nm : CaosName, nm ≠ builtins_BaseObject →
      read_concepts_fix_bases nm [] = [builtins_Object]) :=
  ⟨fun ns nm h => by simp [read_links_fix_base, h],
   fun ns nm h => by simp [read_link_properties_fix_base, h],
   fun nm h => by simp [read_concepts_fix_bases, h]⟩

/-- Witness for C9: a user-module link, link property and concept declared
with no bases receive the builtin link, link_property and Object bases
respectively. -/
theorem C9_default_builtin_bases_witness :
    read_links_fix_base id ⟨"test", "friend"⟩ [] = [builtins_link]
    ∧ read_link_properties_fix_base id ⟨"test", "weight"⟩ [] =
        [builtins_link_property]
    ∧ read_concepts_fix_bases ⟨"test", "Person"⟩ [] = [builtins_Object] :=
  ⟨C9_default_builtin_bases.1 id ⟨"test", "friend"⟩ (by decide),
   C9_default_builtin_bases.2.1 id ⟨"test", "weight"⟩ (by decide),
   C9_default_builtin_bases.2.2 ⟨"test", "Person"⟩ (by decide)⟩

/-- Helper: registering the same declaration a second time leaves the
name-keyed index unchanged — the second `add` replaces the entry under that
name with an identical one. -/
theorem meta_add_double (idx : List (CaosName × SpecLink)) (l : SpecLink) :
    meta_add (meta_add idx l) l = meta_add idx l := by
  unfold meta_add
  by_cases h : (idx.find? (fun p => p.fst = l.name)).isSome
  · rw [if_pos h]
    obtain ⟨x, hx, hpx⟩ := List.find?_isSome.mp h
    have h2 : ((idx.map (fun p => if p.fst = l.name then (p.fst, l) else p)).find?
        (fun p => p.fst = l.name)).isSome := by
      apply List.find?_isSome.mpr
      refine ⟨if x.fst = l.name then (x.fst, l) else x, List.mem_map_of_mem _ hx, ?_⟩
      split <;> exact hpx
    rw [if_pos h2, List.map_map]
    apply List.map_congr_left
    intro p _
    simp only [Function.comp_apply]
    split <;> simp_all
  · rw [if_neg h]
    have h2 : ((idx ++ [(l.name, l)]).find? (fun p => p.fst = l.name)).isSome := by
      apply List.find?_isSome.mpr
      exact ⟨(l.name, l), by simp, by simp⟩
    rw [if_pos h2, List.map_append]
    have hnone : ∀ x ∈ idx, ¬ (x.fst = l.name) := by
      intro x hx hfx
      exact absurd (List.find?_isSome.mpr ⟨x, hx, by simp [hfx]⟩) h
    congr 1
    · conv_rhs => rw [← List.map_id idx]
      apply List.map_congr_left
      intro p hp
      rw [if_neg (hnone p hp)]
      rfl
    · simp

/-- C1: specializing a pointer for a concrete use is deterministic — the
specialized qualified name is a pure function of the
`(source, pointer-name, target)` triple (its module is the generic pointer's
module, its local name the generated encoding of the triple); the
specialization's base tuple is exactly the generic pointer's qualified name;
and registering the specialization produced by the same triple twice leaves
the index as after the first registration, creating no duplicate. -/
theorem C1_specialization_deterministic (source target q : CaosName)
    (idx : List (CaosName × SpecLink)) :
    (specialize_link source target q).name =
      ⟨q.module, generate_name source target q⟩
    ∧ (specialize_link source target q).base = [q]
    ∧ meta_add (meta_add idx (specialize_link source target q))
        (specialize_link source target q) =
      meta_add idx (specialize_link source target q) :=
  ⟨rfl, rfl, meta_add_double idx (specialize_link source target q)⟩

/-- C8 counterexample: re-registering an atom under an already present
qualified name of the same kind is not an error — the bare
`globalmeta.add(atom)` in `read_atoms` accepts it and leaves the index
unchanged, so duplicate registration is not an error for every declaration
kind. -/
theorem C8_samekind_counterexample :
    register_atom [(⟨"test", "a"⟩, DeclKind.atom)] ⟨"test", "a"⟩ =
      Except.ok [(⟨"test", "a"⟩, DeclKind.atom)] :=
  rfl

/-- C8 (amended): loading a concept whose qualified name is already present in
the global index (with any kind) fails with a duplicate-definition error,
through the explicit pre-check in `read_concepts`; for the other declaration
kinds, registration through `add` fails exactly when the name is already
registered with a different kind, and a fresh name always registers. -/
theorem C8_registration_checks (idx : List (CaosName × DeclKind))
    (nm : CaosName) :
    ((kindIndexGet idx nm).isSome →
      register_concept idx nm = Except.error MetaErr.duplicateName)
    ∧ (∀ k k0, kindIndexGet idx nm = some k0 →
        (RealmMeta_add idx nm k = Except.error MetaErr.duplicateName ↔
          k0 ≠ k))
    ∧ (∀ k, kindIndexGet idx nm = none →
        RealmMeta_add idx nm k = Except.ok (idx ++ [(nm, k)])) := by
  refine ⟨fun h => ?_, fun k k0 h => ?_, fun k h => ?_⟩
  · unfold register_concept
    rw [if_pos h]
  · unfold RealmMeta_add
    rw [h]
    by_cases hk : k0 = k
    · subst hk
      simp
    · simp [hk]
  · unfold RealmMeta_add
    rw [h]

/-- Witness for C8 (amended): a concept name already taken by an atom is a
duplicate-definition error, and so is re-registering that name under the
`concept` kind through `add`. -/
theorem C8_registration_checks_witness :
    register_concept [(⟨"test", "X"⟩, DeclKind.atom)] ⟨"test", "X"⟩ =
      Except.error MetaErr.duplicateName
    ∧ RealmMeta_add [(⟨"test", "X"⟩, DeclKind.atom)] ⟨"test", "X"⟩
        DeclKind.concept = Except.error MetaErr.duplicateName :=
  ⟨(C8_registration_checks [(⟨"test", "X"⟩, DeclKind.atom)] ⟨"test", "X"⟩).1
      (by decide),
   ((C8_registration_checks [(⟨"test", "X"⟩, DeclKind.atom)] ⟨"test", "X"⟩).2.1
      DeclKind.concept DeclKind.atom (by decide)).mpr (by decide)⟩

/-- C6: the round trip loses abstract constraints on link properties.  A link
property declared with a regular constraint and a distinct abstract
constraint comes back from `represent` with the regular constraint's value
repeated under `abstract-constraints` (line 454 of the source chains
`local_constraints` there), so the dumped form does not reproduce the input's
`abstract-constraints` field. -/
theorem C6_represent_abstract_constraints_bug :
    LinkDef_represent_properties
      [("prop", intake_link_property
        ⟨⟨"semantix.caos.builtins", "str"⟩, none, none, none,
         [("PointerConstraintUnique", ["loc-unique"])],
         [("PointerConstraintUnique", ["abs-unique"])]⟩
        ⟨⟨"semantix.caos.builtins", "str"⟩, false, []⟩)] =
      [("prop", PropRepr.keyed "semantix.caos.builtins.str"
        ⟨some ["loc-unique"], some ["loc-unique"], none, none, none⟩)]
    ∧ cflat (intake_link_property
        ⟨⟨"semantix.caos.builtins", "str"⟩, none, none, none,
         [("PointerConstraintUnique", ["loc-unique"])],
         [("PointerConstraintUnique", ["abs-unique"])]⟩
        ⟨⟨"semantix.caos.builtins", "str"⟩, false, []⟩).abstract_constraints =
      ["abs-unique"]
    ∧ (["loc-unique"] : List String) ≠ ["abs-unique"] :=
  ⟨rfl, rfl, by decide⟩

end Caos
